import Mathlib

/-
Verification development for the imgur album downloader (downloader.py).

The embedding models the pure logic of the script:
  * `pyReplace` models Python `str.replace(old, new)` (all non-overlapping
    occurrences, scanned left to right), used at line 30 of the source as
    `link.replace('http:', 'https:')`.
  * `pyBasename` models POSIX `os.path.basename` (everything after the last
    slash), used at line 44 of the source.
  * The filesystem is a map from path strings to optional byte contents
    (bytes as `List Nat`); `FS.isfile` models `os.path.isfile` and
    `FS.write` models `open(path, 'wb')` followed by writing chunks.
  * Network behaviour is an oracle `String → Fetch`: `Fetch.fail` is an
    exception raised before the destination file is opened (transport error
    in `requests.get`, or `raise_for_status` on a non-success HTTP status);
    `Fetch.stream written interrupted` means the file was opened and the
    chunks in `written` were written to it; `interrupted = true` means the
    streaming loop then raised (mid-stream failure), `interrupted = false`
    means the download completed.
  * `processLink` is the body of the per-item loop of `__save_images`
    (lines 42-64); `save_images` is the whole loop; `download_album` and
    `download_account` model the two driver functions, with the imgur
    client modelled as functions returning `Option` (`none` models
    `ImgurClientError`), and the interactive album prompt of
    `download_account` modelled as a selection predicate `choose`.
    The write of the `last_downloaded` bookkeeping file and all `print`
    calls are omitted: they do not affect counters, image files, or
    returned values. `SaveState.requests` logs the URLs for which a GET
    request is issued.
-/

/-- Model of Python `str.replace` on character lists, fuelled so that it is
structurally recursive; fuel `s.length` is always sufficient for a nonempty
pattern. At each position, if `old` is a prefix of the remaining input the
occurrence is replaced by `new` and scanning resumes after it, otherwise one
character is copied. -/
def pyRepF (old new : List Char) : Nat → List Char → List Char
  | _, [] => []
  | 0, s => s
  | fuel + 1, c :: rest =>
    if old.isPrefixOf (c :: rest) then
      new ++ pyRepF old new fuel (List.drop (old.length - 1) rest)
    else
      c :: pyRepF old new fuel rest

/-- Model of Python `str.replace(old, new)` on strings. -/
def pyReplace (old new s : String) : String :=
  ⟨pyRepF old.data new.data s.data.length s.data⟩

/-- Whether `pat` occurs as a contiguous sublist of the input. -/
def containsSub (pat : List Char) : List Char → Bool
  | [] => pat.isEmpty
  | c :: rest => pat.isPrefixOf (c :: rest) || containsSub pat rest

/-- Whether string `p` is an initial segment of string `s`. -/
def strStartsWith (p s : String) : Bool := p.data.isPrefixOf s.data

/-- Accumulator pass for `pyBasename`: a slash resets the accumulated
segment, any other character extends it. -/
def basenameGo (acc : List Char) : List Char → List Char
  | [] => acc
  | c :: rest => if c = '/' then basenameGo [] rest else basenameGo (acc ++ [c]) rest

/-- Model of POSIX `os.path.basename`: the substring after the last `/`
(the whole string when it has no slash). Note that query strings and
fragments are not stripped. -/
def pyBasename (s : String) : String := ⟨basenameGo [] s.data⟩

/-- The local filesystem: a map from path to optional file contents,
contents being a byte list. -/
abbrev FS := String → Option (List Nat)

/-- Model of `os.path.isfile`. -/
def FS.isfile (fs : FS) (p : String) : Bool := (fs p).isSome

/-- Model of creating/overwriting the file at `p` with contents `c`. -/
def FS.write (fs : FS) (p : String) (c : List Nat) : FS :=
  fun q => if q = p then some c else fs q

/-- The empty filesystem. -/
def emptyFS : FS := fun _ => none

/-- The `Result` namedtuple of the source (line 35). -/
structure Result where
  downloaded : Nat
  failed : Nat
  skipped : Nat
  total_bytes : Nat
deriving DecidableEq, Repr

/-- Field-wise sum of two `Result`s, as performed by the accumulation in
`download_account` (lines 133-136). -/
def Result.add (a b : Result) : Result :=
  ⟨a.downloaded + b.downloaded, a.failed + b.failed,
   a.skipped + b.skipped, a.total_bytes + b.total_bytes⟩

/-- Outcome of a GET request for one URL. -/
inductive Fetch where
  | fail : Fetch
  | stream (written : List (List Nat)) (interrupted : Bool) : Fetch

/-- An imgur image descriptor as used by `__get_image_links`: the generic
`link` attribute and the optional `mp4` attribute (`mp4 = some _` models
`hasattr(image, 'mp4')`). -/
structure Image where
  link : String
  mp4 : Option String
deriving DecidableEq, Repr

/-- The link selected at line 29 of the source:
`image.mp4 if hasattr(image, 'mp4') else image.link`. -/
def effective_link (image : Image) : String :=
  match image.mp4 with
  | some m => m
  | none => image.link

/-- Model of `__get_image_links` (lines 23-31): select the mp4 variant when
present, else the generic link, and apply `replace('http:', 'https:')`. -/
def get_image_links (images : List Image) : List String :=
  images.map (fun image => pyReplace "http:" "https:" (effective_link image))

/-- State carried through the loop of `__save_images`: the filesystem, the
running counters, and the log of URLs for which a GET was issued. -/
structure SaveState where
  fs : FS
  res : Result
  requests : List String

/-- One iteration of the loop of `__save_images` (lines 42-64). The skip
branch issues no request and leaves the filesystem alone. `Fetch.fail`
(exception before `open`) leaves the filesystem alone and counts a failure.
A stream writes the received chunks to the file; if interrupted it counts a
failure (with the partial file left in place, as in the source, where the
`with` block closes but does not delete the file), otherwise it counts a
download and accumulates the byte total. -/
def processLink (oracle : String → Fetch) (path : String) (st : SaveState)
    (link : String) : SaveState :=
  let localPath := path ++ "/" ++ pyBasename link
  if st.fs.isfile localPath then
    { st with res := { st.res with skipped := st.res.skipped + 1 } }
  else
    match oracle link with
    | Fetch.fail =>
      { st with res := { st.res with failed := st.res.failed + 1 },
                requests := st.requests ++ [link] }
    | Fetch.stream written interrupted =>
      let content := written.flatten
      if interrupted then
        { fs := st.fs.write localPath content,
          res := { st.res with failed := st.res.failed + 1 },
          requests := st.requests ++ [link] }
      else
        { fs := st.fs.write localPath content,
          res := ⟨st.res.downloaded + 1, st.res.failed, st.res.skipped,
                  st.res.total_bytes + content.length⟩,
          requests := st.requests ++ [link] }

/-- Model of `__save_images` (lines 38-67): fold the per-item step over the
link list, starting from zero counters, under the directory
`images/<folder_name>`. -/
def save_images (oracle : String → Fetch) (folder_name : String)
    (images : List String) (fs0 : FS) : SaveState :=
  List.foldl (processLink oracle ("images/" ++ folder_name))
    { fs := fs0, res := ⟨0, 0, 0, 0⟩, requests := [] } images

/-- An imgur album record as seen by both drivers: its id, its owner's
account name (`account_url`, optional), its title (optional), and its image
list (empty for the album stubs returned by the account listing, which do
not carry images). -/
structure Album where
  id : String
  account_url : Option String
  title : Option String
  images : List Image
deriving DecidableEq, Repr

/-- Model of Python `x or default` for an optional string attribute: the
default is taken when the attribute is absent or is the empty string (both
falsy in Python). Used at lines 87-88 of the source. -/
def pyOr (v : Option String) (d : String) : String :=
  match v with
  | some s => if s = "" then d else s
  | none => d

/-- Model of `download_album` (lines 70-92). The imgur client call
`__client.get_album` is modelled by `get_album`; `none` models an
`ImgurClientError` (album not found / private). In that case the source
catches the error, prints a message, and falls off the end of the function,
returning Python `None`: modelled by `none`. Otherwise the folder name
`'<author> - <id> - <title>'` is built with the `or`-fallbacks of lines
87-88 and `__save_images` runs; the result value and the updated filesystem
are returned. -/
def download_album (oracle : String → Fetch) (get_album : String → Option Album)
    (album_id : String) (fs0 : FS) : Option (Result × FS) :=
  match get_album album_id with
  | none => none
  | some album =>
    let author := pyOr album.account_url "Anonymous"
    let title := pyOr album.title "Untitled"
    let st := save_images oracle (author ++ " - " ++ album.id ++ " - " ++ title)
      (get_image_links album.images) fs0
    some (st.res, st.fs)

/-- The per-album accumulation loop of `download_account` (lines 131-136):
each selected album is downloaded and its four counters are added to the
running totals. When `download_album` returns Python `None` (album did not
resolve), the source reads `result.downloaded` of `None` and raises an
`AttributeError`; that crash is modelled by `none`. -/
def foldAlbums (oracle : String → Fetch) (get_album : String → Option Album) :
    List Album → FS → Result → Option (Result × FS)
  | [], fs, acc => some (acc, fs)
  | a :: rest, fs, acc =>
    match download_album oracle get_album a.id fs with
    | none => none
    | some (r, fs') => foldAlbums oracle get_album rest fs' (acc.add r)

/-- Observable outcome of `download_account`: either the function returns a
value (`ok` carries the returned `Result` or Python `None`, plus the final
filesystem) or it crashes with an uncaught `AttributeError` (`crash`,
raised when an album in the selected list fails to resolve). -/
inductive AccountOutcome where
  | ok (result : Option Result) (fs : FS) : AccountOutcome
  | crash : AccountOutcome

/-- The value returned to the caller, when the call returns at all. -/
def retResult : AccountOutcome → Option Result
  | AccountOutcome.ok r _ => r
  | AccountOutcome.crash => none

/-- Model of `download_account` (lines 95-143). `get_account_albums` models
`__client.get_account_albums`, with `none` for `ImgurClientError` (unknown
or empty account): in that case the source falls back to
`download_album(account_name)` (line 143). The interactive y/n prompt is
modelled by `choose`; the `last_downloaded` bookkeeping file and prints are
omitted. When the album loop completes, the source returns
`Result(num_downloaded, num_downloaded, num_skipped, total_bytes)`
(line 140), placing the downloaded count in the `failed` field; the model
reproduces that expression verbatim. -/
def download_account (oracle : String → Fetch) (get_album : String → Option Album)
    (get_account_albums : String → Option (List Album)) (choose : Album → Bool)
    (account_name : String) (fs0 : FS) : AccountOutcome :=
  match get_account_albums account_name with
  | some albums =>
    match foldAlbums oracle get_album (albums.filter choose) fs0 ⟨0, 0, 0, 0⟩ with
    | some (acc, fs') =>
      AccountOutcome.ok (some ⟨acc.downloaded, acc.downloaded, acc.skipped, acc.total_bytes⟩) fs'
    | none => AccountOutcome.crash
  | none =>
    match download_album oracle get_album account_name fs0 with
    | some (r, fs') => AccountOutcome.ok (some r) fs'
    | none => AccountOutcome.ok none fs0

/-- An all-zero save state over a given filesystem, the loop's start. -/
def initState (fs : FS) : SaveState := ⟨fs, ⟨0, 0, 0, 0⟩, []⟩

/-- An oracle under which every GET fails before the file is opened. -/
def orcFail : String → Fetch := fun _ => Fetch.fail

/-- An oracle under which every GET succeeds with a single one-byte chunk. -/
def orcOk : String → Fetch := fun _ => Fetch.stream [[1]] false

/-- An oracle under which every GET is interrupted mid-stream after one
chunk of two bytes has been written. -/
def orcInterrupted : String → Fetch := fun _ => Fetch.stream [[7, 8]] true

/-- A two-byte-chunk successful oracle, used by the C5 witness. -/
def orcTwoBytes : String → Fetch := fun _ => Fetch.stream [[5, 6]] false

/-- A concrete image with no mp4 variant, for concrete scenarios. -/
def imgPlain : Image := ⟨"https://i.example/x.jpg", none⟩

/-- A concrete resolvable album containing `imgPlain`. -/
def albumA : Album := ⟨"a1", some "user", some "ttl", [imgPlain]⟩

/-- A client that resolves only album id `a1`, to `albumA`. -/
def getAlbumA : String → Option Album := fun s => if s = "a1" then some albumA else none

/-- A client account listing that resolves only account `acct`, to the
one-album list `[albumA]`. -/
def accListA : String → Option (List Album) := fun s => if s = "acct" then some [albumA] else none

/-- A client on which no album id resolves. -/
def getAlbumNone : String → Option Album := fun _ => none

/-- A client on which no account name resolves. -/
def accListNone : String → Option (List Album) := fun _ => none

/-- An unresolvable album stub appearing in an account listing. -/
def albumBad : Album := ⟨"bad", none, none, []⟩

/-- A client account listing that resolves account `acct` to a list whose
single album does not itself resolve. -/
def accListBad : String → Option (List Album) := fun s => if s = "acct" then some [albumBad] else none

/-- Each loop iteration settles exactly one item: the sum of the three
counters grows by exactly one, whichever branch is taken. -/
theorem processLink_counter (oracle : String → Fetch) (pth : String)
    (st : SaveState) (link : String) :
    (processLink oracle pth st link).res.downloaded
      + (processLink oracle pth st link).res.failed
      + (processLink oracle pth st link).res.skipped
      = st.res.downloaded + st.res.failed + st.res.skipped + 1 := by
  cases hif : st.fs.isfile (pth ++ "/" ++ pyBasename link) with
  | true => simp [processLink, hif]; omega
  | false =>
    cases horc : oracle link with
    | fail => simp [processLink, hif, horc]; omega
    | stream written interrupted =>
      cases interrupted <;> simp [processLink, hif, horc] <;> omega

/-- Fold version of `processLink_counter`: after processing a list of
links, the counter sum has grown by the length of the list. -/
theorem foldl_counter (oracle : String → Fetch) (pth : String)
    (images : List String) :
    ∀ st : SaveState,
      (List.foldl (processLink oracle pth) st images).res.downloaded
        + (List.foldl (processLink oracle pth) st images).res.failed
        + (List.foldl (processLink oracle pth) st images).res.skipped
      = st.res.downloaded + st.res.failed + st.res.skipped + images.length := by
  induction images with
  | nil => intro st; simp
  | cons l rest ih =>
    intro st
    rw [List.foldl_cons, ih (processLink oracle pth st l),
        List.length_cons]
    have := processLink_counter oracle pth st l
    omega

/-- A file already on disk is untouched by one loop iteration: the fetch
branch only ever writes to a path at which `isfile` was false. -/
theorem fs_preserved_step (oracle : String → Fetch) (pth : String)
    (st : SaveState) (link q : String) (c : List Nat)
    (h : st.fs q = some c) : (processLink oracle pth st link).fs q = some c := by
  cases hif : st.fs.isfile (pth ++ "/" ++ pyBasename link) with
  | true => simpa [processLink, hif] using h
  | false =>
    have hq : q ≠ pth ++ "/" ++ pyBasename link := by
      intro e
      rw [e] at h
      simp [FS.isfile, Option.isSome_iff_exists] at hif
      rw [hif] at h
      exact Option.noConfusion h
    cases horc : oracle link with
    | fail => simpa [processLink, hif, horc] using h
    | stream written interrupted =>
      cases interrupted <;>
        simp [processLink, hif, horc, FS.write, hq] <;> exact h

/-- Fold version of `fs_preserved_step`: files on disk before the loop (or
written during it) survive the rest of the loop with the same contents. -/
theorem fs_preserved_foldl (oracle : String → Fetch) (pth : String)
    (images : List String) :
    ∀ (st : SaveState) (q : String) (c : List Nat), st.fs q = some c →
      (List.foldl (processLink oracle pth) st images).fs q = some c := by
  induction images with
  | nil => intro st q c h; simpa using h
  | cons l rest ih =>
    intro st q c h
    rw [List.foldl_cons]
    exact ih _ q c (fs_preserved_step oracle pth st l q c h)

/-- The failure counter never decreases across one loop iteration. -/
theorem failed_mono_step (oracle : String → Fetch) (pth : String)
    (st : SaveState) (link : String) :
    st.res.failed ≤ (processLink oracle pth st link).res.failed := by
  cases hif : st.fs.isfile (pth ++ "/" ++ pyBasename link) with
  | true => simp [processLink, hif]
  | false =>
    cases horc : oracle link with
    | fail => simp [processLink, hif, horc]
    | stream written interrupted =>
      cases interrupted <;> simp [processLink, hif, horc]

/-- The failure counter never decreases across the whole loop. -/
theorem failed_mono_foldl (oracle : String → Fetch) (pth : String)
    (images : List String) :
    ∀ st : SaveState,
      st.res.failed ≤ (List.foldl (processLink oracle pth) st images).res.failed := by
  induction images with
  | nil => intro st; simp
  | cons l rest ih =>
    intro st
    rw [List.foldl_cons]
    exact le_trans (failed_mono_step oracle pth st l) (ih _)

/-- If an iteration produced no new failure, the item's local file exists
afterwards: the item was either skipped (file already there) or fully
downloaded (file just written). -/
theorem file_after_step (oracle : String → Fetch) (pth : String)
    (st : SaveState) (link : String)
    (h : (processLink oracle pth st link).res.failed = st.res.failed) :
    (processLink oracle pth st link).fs.isfile (pth ++ "/" ++ pyBasename link) = true := by
  cases hif : st.fs.isfile (pth ++ "/" ++ pyBasename link) with
  | true => simp [processLink, hif]
  | false =>
    cases horc : oracle link with
    | fail => simp [processLink, hif, horc] at h
    | stream written interrupted =>
      cases interrupted with
      | true => simp [processLink, hif, horc] at h
      | false =>
        have hif' := hif
        simp only [FS.isfile] at hif'
        simp [processLink, hif, horc, FS.isfile, FS.write, hif']

/-- If the whole loop produced no new failure, then every processed item
has its local file on disk when the loop finishes. -/
theorem files_exist_foldl (oracle : String → Fetch) (pth : String)
    (images : List String) :
    ∀ st : SaveState,
      (List.foldl (processLink oracle pth) st images).res.failed = st.res.failed →
      ∀ link ∈ images,
        (List.foldl (processLink oracle pth) st images).fs.isfile
          (pth ++ "/" ++ pyBasename link) = true := by
  induction images with
  | nil => intro st _ link hmem; exact absurd hmem (List.not_mem_nil link)
  | cons l rest ih =>
    intro st hfail link hmem
    rw [List.foldl_cons] at hfail ⊢
    have hmono1 := failed_mono_step oracle pth st l
    have hmono2 := failed_mono_foldl oracle pth rest (processLink oracle pth st l)
    have h1 : (processLink oracle pth st l).res.failed = st.res.failed := by omega
    rcases List.mem_cons.mp hmem with rfl | hmem'
    · have hfile := file_after_step oracle pth st link h1
      rcases Option.isSome_iff_exists.mp hfile with ⟨c, hc⟩
      have := fs_preserved_foldl oracle pth rest (processLink oracle pth st link)
        (pth ++ "/" ++ pyBasename link) c hc
      simp [FS.isfile, this]
    · exact ih (processLink oracle pth st l) (by omega) link hmem'

/-- If every item's local file is already on disk, the loop only skips:
the state is unchanged except that `skipped` grows by the list length. -/
theorem all_skip_foldl (oracle : String → Fetch) (pth : String)
    (images : List String) :
    ∀ st : SaveState,
      (∀ link ∈ images, st.fs.isfile (pth ++ "/" ++ pyBasename link) = true) →
      List.foldl (processLink oracle pth) st images
        = ⟨st.fs, ⟨st.res.downloaded, st.res.failed, st.res.skipped + images.length,
                   st.res.total_bytes⟩, st.requests⟩ := by
  induction images with
  | nil => intro st _; simp
  | cons l rest ih =>
    intro st h
    have hl : st.fs.isfile (pth ++ "/" ++ pyBasename l) = true := h l (List.mem_cons_self l rest)
    have hstep : processLink oracle pth st l
        = ⟨st.fs, ⟨st.res.downloaded, st.res.failed, st.res.skipped + 1,
                   st.res.total_bytes⟩, st.requests⟩ := by
      simp [processLink, hl]
    rw [List.foldl_cons, hstep,
        ih _ (by intro link hmem; exact h link (List.mem_cons_of_mem l hmem))]
    simp [List.length_cons]
    omega

/-- Claim C1: for every sequence of items passed to the album fetch loop
(`__save_images`), the returned `Result` satisfies
`downloaded + failed + skipped = length(items)`: each item is counted in
exactly one of the three counters. -/
theorem save_images_counter_sum (oracle : String → Fetch) (folder_name : String)
    (images : List String) (fs0 : FS) :
    (save_images oracle folder_name images fs0).res.downloaded
      + (save_images oracle folder_name images fs0).res.failed
      + (save_images oracle folder_name images fs0).res.skipped
      = images.length := by
  unfold save_images
  rw [foldl_counter]
  simp

/-- Claim C4: running the album fetch loop a second time over the same
items against the filesystem left by a first run that had zero failures
yields `downloaded = 0`, `skipped = length(items)`, `total_bytes = 0`
(under any network oracle for the second run). -/
theorem save_images_idempotent (oracle1 oracle2 : String → Fetch)
    (folder_name : String) (images : List String) (fs0 : FS)
    (h : (save_images oracle1 folder_name images fs0).res.failed = 0) :
    (save_images oracle2 folder_name images
        (save_images oracle1 folder_name images fs0).fs).res
      = ⟨0, 0, images.length, 0⟩ := by
  have hall : ∀ link ∈ images,
      (save_images oracle1 folder_name images fs0).fs.isfile
        (("images/" ++ folder_name) ++ "/" ++ pyBasename link) = true := by
    intro link hmem
    exact files_exist_foldl oracle1 ("images/" ++ folder_name) images
      (initState fs0) (by simpa [initState, save_images] using h) link hmem
  unfold save_images
  rw [all_skip_foldl oracle2 ("images/" ++ folder_name) images _
    (by intro link hmem; exact hall link hmem)]
  simp

/-- Claim C4 witness: a concrete one-item album downloaded successfully on
the first run is entirely skipped on the second. -/
theorem save_images_idempotent_witness :
    (save_images orcOk "f" ["https://i.example/a.jpg"] emptyFS).res.failed = 0 ∧
    (save_images orcOk "f" ["https://i.example/a.jpg"]
        (save_images orcOk "f" ["https://i.example/a.jpg"] emptyFS).fs).res
      = ⟨0, 0, 1, 0⟩ :=
  ⟨by decide,
   save_images_idempotent orcOk orcOk "f" ["https://i.example/a.jpg"] emptyFS (by decide)⟩

/-- Claim C7: for an item whose local path already holds a regular file
when it is processed, the loop issues no network request, increments
`skipped` by one, and leaves the filesystem untouched; moreover the whole
loop never overwrites or truncates a file already on disk. -/
theorem skip_rule_frame (oracle : String → Fetch) (pth : String)
    (st : SaveState) (link : String)
    (h : st.fs.isfile (pth ++ "/" ++ pyBasename link) = true) :
    (processLink oracle pth st link).res.skipped = st.res.skipped + 1 ∧
    (processLink oracle pth st link).requests = st.requests ∧
    (processLink oracle pth st link).fs = st.fs ∧
    ∀ (folder_name : String) (images : List String) (fs0 : FS)
      (q : String) (c : List Nat), fs0 q = some c →
        (save_images oracle folder_name images fs0).fs q = some c := by
  refine ⟨by simp [processLink, h], by simp [processLink, h], by simp [processLink, h], ?_⟩
  intro folder_name images fs0 q c hq
  unfold save_images
  exact fs_preserved_foldl oracle ("images/" ++ folder_name) images _ q c hq

/-- Claim C7 witness: with `a.jpg` already on disk, the item is skipped,
no request is made, the filesystem is unchanged, and the file's contents
survive a whole later run untouched. -/
theorem skip_rule_frame_witness :
    (emptyFS.write "images/f/a.jpg" [9]).isfile
        ("images/f" ++ "/" ++ pyBasename "https://i.example/a.jpg") = true ∧
    (processLink orcOk "images/f"
        (initState (emptyFS.write "images/f/a.jpg" [9]))
        "https://i.example/a.jpg").res.skipped = 0 + 1 :=
  ⟨by decide,
   (skip_rule_frame orcOk "images/f" (initState (emptyFS.write "images/f/a.jpg" [9]))
      "https://i.example/a.jpg" (by decide)).1⟩

/-- Claim C3 counterexample: under an oracle that is interrupted mid-stream
after two bytes were written, the failed item's file does exist afterwards
at its local path (with the partial contents), and a second run then counts
the item as skipped, treating it as already downloaded. -/
theorem midstream_failure_leaves_file :
    (processLink orcInterrupted "images/f" (initState emptyFS)
        "https://i.example/a.jpg").res.failed = 1 ∧
    (processLink orcInterrupted "images/f" (initState emptyFS)
        "https://i.example/a.jpg").fs "images/f/a.jpg" = some [7, 8] ∧
    (save_images orcOk "f" ["https://i.example/a.jpg"]
        (processLink orcInterrupted "images/f" (initState emptyFS)
          "https://i.example/a.jpg").fs).res.skipped = 1 := by
  refine ⟨by decide, by decide, by decide⟩

/-- Claim C3 (amended): a fetch that fails before the response body starts
streaming (transport error on the GET, or a non-success HTTP status, or a
failure to open the file) leaves the filesystem untouched, so no file
appears at the item's local path; but a fetch interrupted while streaming
leaves the partially-written file at the local path, and a later run then
treats that item as already downloaded. -/
theorem midstream_failure_amended (oracle : String → Fetch) (pth : String)
    (st : SaveState) (link : String) :
    (oracle link = Fetch.fail → (processLink oracle pth st link).fs = st.fs) ∧
    (∀ written, oracle link = Fetch.stream written true →
      st.fs.isfile (pth ++ "/" ++ pyBasename link) = false →
        (processLink oracle pth st link).fs (pth ++ "/" ++ pyBasename link)
          = some written.flatten ∧
        (processLink oracle pth st link).res.failed = st.res.failed + 1) := by
  constructor
  · intro horc
    cases hif : st.fs.isfile (pth ++ "/" ++ pyBasename link) with
    | true => simp [processLink, hif]
    | false => simp [processLink, hif, horc]
  · intro written horc hif
    simp [processLink, hif, horc, FS.write]

/-- Claim C3 amended witness: a failing GET on an absent file leaves the
filesystem unchanged. -/
theorem midstream_failure_amended_witness :
    orcFail "https://i.example/a.jpg" = Fetch.fail ∧
    (processLink orcFail "images/f" (initState emptyFS)
        "https://i.example/a.jpg").fs = (initState emptyFS).fs :=
  ⟨rfl,
   (midstream_failure_amended orcFail "images/f" (initState emptyFS)
      "https://i.example/a.jpg").1 rfl⟩

/-- Claim C5: for a descriptor carrying both a primary link and an mp4
alternate, the resolver emits the (scheme-normalized) alternate — the
primary is ignored — and the fetch loop both requests that URL and names
the local file by its basename; when no alternate is present the primary
link is the one emitted. -/
theorem alternate_url_preference (link m folder_name : String)
    (oracle : String → Fetch) (fs0 : FS)
    (h : fs0.isfile (("images/" ++ folder_name) ++ "/"
        ++ pyBasename (pyReplace "http:" "https:" m)) = false) :
    get_image_links [⟨link, some m⟩] = [pyReplace "http:" "https:" m] ∧
    get_image_links [⟨link, none⟩] = [pyReplace "http:" "https:" link] ∧
    (save_images oracle folder_name (get_image_links [⟨link, some m⟩]) fs0).requests
      = [pyReplace "http:" "https:" m] ∧
    (∀ written, oracle (pyReplace "http:" "https:" m) = Fetch.stream written false →
      (save_images oracle folder_name (get_image_links [⟨link, some m⟩]) fs0).fs
          (("images/" ++ folder_name) ++ "/"
            ++ pyBasename (pyReplace "http:" "https:" m))
        = some written.flatten) := by
  refine ⟨rfl, rfl, ?_, ?_⟩
  · show (processLink oracle ("images/" ++ folder_name) (initState fs0)
      (pyReplace "http:" "https:" m)).requests = [pyReplace "http:" "https:" m]
    cases horc : oracle (pyReplace "http:" "https:" m) with
    | fail => simp [processLink, initState, h, horc]
    | stream written interrupted =>
      cases interrupted <;> simp [processLink, initState, h, horc]
  · intro written horc
    show (processLink oracle ("images/" ++ folder_name) (initState fs0)
        (pyReplace "http:" "https:" m)).fs (("images/" ++ folder_name) ++ "/"
          ++ pyBasename (pyReplace "http:" "https:" m)) = some written.flatten
    simp [processLink, initState, h, horc, FS.write]

/-- Claim C5 witness: a concrete descriptor with both links — the alternate
mp4 URL is the single resolved link and the single URL requested. -/
theorem alternate_url_preference_witness :
    emptyFS.isfile (("images/" ++ "f") ++ "/"
        ++ pyBasename (pyReplace "http:" "https:" "http://i.example/alt.mp4")) = false ∧
    (save_images orcTwoBytes "f"
        (get_image_links [⟨"http://i.example/primary.gif", some "http://i.example/alt.mp4"⟩])
        emptyFS).requests
      = [pyReplace "http:" "https:" "http://i.example/alt.mp4"] :=
  ⟨by decide,
   (alternate_url_preference "http://i.example/primary.gif" "http://i.example/alt.mp4"
      "f" orcTwoBytes emptyFS (by decide)).2.2.1⟩

/-- A list is a Boolean prefix of itself followed by anything. -/
theorem isPrefixOf_append_self (p t : List Char) : p.isPrefixOf (p ++ t) = true := by
  induction p with
  | nil => simp [List.isPrefixOf]
  | cons a as ih =>
    simp only [List.cons_append, List.isPrefixOf, beq_self_eq_true, Bool.true_and]
    exact ih

/-- A Boolean prefix can be split off: the larger list is the pattern
followed by some tail. -/
theorem isPrefixOf_exists (p l : List Char) (h : p.isPrefixOf l = true) :
    ∃ t, l = p ++ t := by
  induction p generalizing l with
  | nil => exact ⟨l, rfl⟩
  | cons a as ih =>
    cases l with
    | nil => simp [List.isPrefixOf] at h
    | cons b bs =>
      simp only [List.isPrefixOf, Bool.and_eq_true, beq_iff_eq] at h
      obtain ⟨t, ht⟩ := ih bs h.2
      exact ⟨t, by simp [h.1, ht]⟩

/-- When the pattern occurs nowhere in the input, replacement is the
identity, at any fuel. -/
theorem pyRepF_no_occurrence (old new : List Char) :
    ∀ (fuel : Nat) (s : List Char), containsSub old s = false →
      pyRepF old new fuel s = s := by
  intro fuel
  induction fuel with
  | zero => intro s _; cases s <;> rfl
  | succ n ih =>
    intro s hs
    cases s with
    | nil => rfl
    | cons c rest =>
      simp [containsSub] at hs
      simp [pyRepF, hs.1, ih rest hs.2]

/-- String-level form of `pyRepF_no_occurrence`. -/
theorem pyReplace_no_occurrence (old new s : String)
    (h : containsSub old.data s.data = false) : pyReplace old new s = s := by
  cases s with
  | mk d => simp [pyReplace, pyRepF_no_occurrence old.data new.data d.length d h]

/-- Unfolding step of the replacer at a position where the pattern `http:`
matches: the match is rewritten to `https:` and scanning resumes after it. -/
theorem pyRepF_http_step (fuel : Nat) (r : List Char) :
    pyRepF "http:".data "https:".data (fuel + 1) ("http:".data ++ r)
      = "https:".data ++ pyRepF "http:".data "https:".data fuel r := by
  have hd : "http:".data ++ r = 'h' :: ('t' :: 't' :: 'p' :: ':' :: r) := rfl
  have hpre : "http:".data.isPrefixOf ('h' :: ('t' :: 't' :: 'p' :: ':' :: r)) = true := by
    rw [← hd]; exact isPrefixOf_append_self _ r
  rw [hd]
  simp [pyRepF, hpre]

/-- Claim C6 counterexample: a resolved URL that already uses the secure
scheme is not necessarily left unchanged — `replace('http:', 'https:')`
also rewrites an occurrence of `http:` inside the query string. -/
theorem scheme_normalization_counterexample :
    strStartsWith "https:" "https://i.example/a.jpg?u=http://x" = true ∧
    pyReplace "http:" "https:" "https://i.example/a.jpg?u=http://x"
      = "https://i.example/a.jpg?u=https://x" ∧
    get_image_links [⟨"https://i.example/a.jpg?u=http://x", none⟩]
      ≠ ["https://i.example/a.jpg?u=http://x"] := by
  refine ⟨by decide, by decide, by decide⟩

/-- Claim C6 (amended): the resolver applies `replace('http:', 'https:')`
to the effective link, which rewrites every occurrence of the substring
`http:` to `https:`. Hence a URL with the insecure scheme is rewritten to
the secure scheme, a URL containing no `http:` substring at all is left
unchanged, and the replaced URL is the one the resolver emits (so the
fetch loop uses it both for the skip-check basename and for the GET); but
a secure-scheme URL containing `http:` later in the string is also
modified. -/
theorem scheme_normalization_amended (s : String) (im : Image) :
    (strStartsWith "http:" s = true →
      strStartsWith "https:" (pyReplace "http:" "https:" s) = true) ∧
    (containsSub "http:".data s.data = false → pyReplace "http:" "https:" s = s) ∧
    get_image_links [im] = [pyReplace "http:" "https:" (effective_link im)] := by
  refine ⟨?_, fun h => pyReplace_no_occurrence "http:" "https:" s h, rfl⟩
  intro h
  simp only [strStartsWith] at h ⊢
  obtain ⟨r, hr⟩ := isPrefixOf_exists "http:".data s.data h
  have h5 : ("http:".data).length = 5 := rfl
  have hlen : ("http:".data ++ r).length = (r.length + 4) + 1 := by
    rw [List.length_append, h5]; omega
  show ("https:".data).isPrefixOf (pyReplace "http:" "https:" s).data = true
  unfold pyReplace
  rw [hr, hlen, pyRepF_http_step]
  exact isPrefixOf_append_self _ _

/-- Claim C6 amended witness: the insecure-scheme URL of a concrete image
link is rewritten to the secure scheme. -/
theorem scheme_normalization_amended_witness :
    strStartsWith "http:" "http://i.example/a.jpg" = true ∧
    strStartsWith "https:" (pyReplace "http:" "https:" "http://i.example/a.jpg") = true :=
  ⟨by decide,
   (scheme_normalization_amended "http://i.example/a.jpg" ⟨"x", none⟩).1 (by decide)⟩

/-- A slash flushes the accumulator: the basename of anything followed by
`/` and a tail is the basename of the tail alone. -/
theorem basenameGo_append_slash (p t : List Char) :
    ∀ acc : List Char, basenameGo acc (p ++ '/' :: t) = basenameGo [] t := by
  induction p with
  | nil => intro acc; simp [basenameGo]
  | cons c cs ih =>
    intro acc
    by_cases hc : c = '/' <;> simp [basenameGo, hc, ih]

/-- Over a slash-free tail the accumulator only grows: the result is the
accumulator followed by the tail. -/
theorem basenameGo_no_slash (t : List Char) (ht : '/' ∉ t) :
    ∀ acc : List Char, basenameGo acc t = acc ++ t := by
  induction t with
  | nil => intro acc; simp [basenameGo]
  | cons c cs ih =>
    intro acc
    have hc : c ≠ '/' := fun e => ht (e ▸ List.mem_cons_self c cs)
    have hcs : '/' ∉ cs := fun hmem => ht (List.mem_cons_of_mem c hmem)
    simp [basenameGo, hc, ih hcs]

/-- Claim C9 counterexample: the local file name is computed with
`os.path.basename`, which does not strip query strings: a URL carrying a
query string yields a different file name than the same URL without it, and
a file already on disk under the query-free name does not make the
query-carrying item skip — it is fetched (and fails here), where the claim
would predict a skip. -/
theorem basename_query_counterexample :
    pyBasename "https://i.example/a.jpg?x=1" = "a.jpg?x=1" ∧
    pyBasename "https://i.example/a.jpg?x=1" ≠ pyBasename "https://i.example/a.jpg" ∧
    (processLink orcFail "images/f"
        (initState (emptyFS.write "images/f/a.jpg" [9]))
        "https://i.example/a.jpg?x=1").res.skipped = 0 ∧
    (processLink orcFail "images/f"
        (initState (emptyFS.write "images/f/a.jpg" [9]))
        "https://i.example/a.jpg?x=1").res.failed = 1 := by
  refine ⟨by decide, by decide, by decide, by decide⟩

/-- Claim C9 (amended): the local file name used for both the existence
check and the write is everything after the final `/` of the effective URL,
with any query string or fragment kept: appending a query string to a URL
changes the derived file name. -/
theorem basename_last_segment (p t q : List Char) (ht : '/' ∉ t) (hq : '/' ∉ q) :
    pyBasename ⟨p ++ '/' :: t⟩ = ⟨t⟩ ∧
    pyBasename ⟨p ++ '/' :: (t ++ '?' :: q)⟩ = ⟨t ++ '?' :: q⟩ ∧
    pyBasename ⟨p ++ '/' :: (t ++ '?' :: q)⟩ ≠ pyBasename ⟨p ++ '/' :: t⟩ := by
  have h1 : pyBasename ⟨p ++ '/' :: t⟩ = ⟨t⟩ := by
    simp [pyBasename, basenameGo_append_slash, basenameGo_no_slash t ht]
  have htq : '/' ∉ t ++ '?' :: q := by
    intro hmem
    rcases List.mem_append.mp hmem with h | h
    · exact ht h
    · rcases List.mem_cons.mp h with h | h
      · exact absurd h.symm (by decide)
      · exact hq h
  have h2 : pyBasename ⟨p ++ '/' :: (t ++ '?' :: q)⟩ = ⟨t ++ '?' :: q⟩ := by
    simp [pyBasename, basenameGo_append_slash, basenameGo_no_slash _ htq]
  refine ⟨h1, h2, ?_⟩
  rw [h1, h2]
  intro he
  have : (t ++ '?' :: q).length = t.length := congrArg (List.length ∘ String.data) he
  simp [List.length_append] at this

/-- Claim C9 amended witness: for a concrete URL, the derived name is the
last slash-separated segment with its query string kept, and it differs
from the query-free name. -/
theorem basename_last_segment_witness :
    ('/' ∉ "a.jpg".data) ∧
    pyBasename ⟨"https://i.example".data ++ '/' :: ("a.jpg".data ++ '?' :: "x=1".data)⟩
      = ⟨"a.jpg".data ++ '?' :: "x=1".data⟩ :=
  ⟨by decide,
   (basename_last_segment "https://i.example".data "a.jpg".data
      "x=1".data (by decide) (by decide)).2.1⟩

/-- `download_album` returns Python `None` exactly when the client cannot
resolve the album id; the filesystem plays no part in that. -/
theorem download_album_none_iff (oracle : String → Fetch)
    (get_album : String → Option Album) (album_id : String) (fs0 : FS) :
    download_album oracle get_album album_id fs0 = none ↔ get_album album_id = none := by
  cases hg : get_album album_id <;> simp [download_album, hg]

/-- If some selected album fails to resolve, the accumulation loop of
`download_account` crashes (models the `AttributeError` raised by reading
`result.downloaded` of `None`). -/
theorem foldAlbums_crash (oracle : String → Fetch)
    (get_album : String → Option Album) (a : Album) (ha : get_album a.id = none) :
    ∀ (albums : List Album) (fs : FS) (acc : Result), a ∈ albums →
      foldAlbums oracle get_album albums fs acc = none := by
  intro albums
  induction albums with
  | nil => intro fs acc hmem; exact absurd hmem (List.not_mem_nil a)
  | cons b rest ih =>
    intro fs acc hmem
    rcases List.mem_cons.mp hmem with rfl | hmem'
    · simp [foldAlbums, (download_album_none_iff oracle get_album a.id fs).mpr ha]
    · cases hb : download_album oracle get_album b.id fs with
      | none => simp [foldAlbums, hb]
      | some p => simp [foldAlbums, hb, ih p.2 (acc.add p.1) hmem']

/-- Claim C8: when the account listing fails with `ImgurClientError` (the
account name does not resolve), `download_account` falls back to
`download_album` on the same string and returns exactly what that album run
returns; the call never crashes on this path, and the failure is visible to
the caller (a `None` return) exactly when the album fallback also fails to
resolve. -/
theorem account_fallback (oracle : String → Fetch)
    (get_album : String → Option Album)
    (get_account_albums : String → Option (List Album)) (choose : Album → Bool)
    (account_name : String) (fs0 : FS)
    (h : get_account_albums account_name = none) :
    retResult (download_account oracle get_album get_account_albums choose account_name fs0)
      = (download_album oracle get_album account_name fs0).map Prod.fst ∧
    download_account oracle get_album get_account_albums choose account_name fs0
      ≠ AccountOutcome.crash ∧
    (retResult (download_account oracle get_album get_account_albums choose account_name fs0)
        = none ↔ get_album account_name = none) := by
  cases hd : download_album oracle get_album account_name fs0 with
  | none =>
    refine ⟨by simp [download_account, h, hd, retResult], by simp [download_account, h, hd], ?_⟩
    simp [download_account, h, hd, retResult,
      (download_album_none_iff oracle get_album account_name fs0).mp hd]
  | some p =>
    refine ⟨by simp [download_account, h, hd, retResult], by simp [download_account, h, hd], ?_⟩
    have : get_album account_name ≠ none := by
      intro hg
      rw [(download_album_none_iff oracle get_album account_name fs0).mpr hg] at hd
      exact Option.noConfusion hd
    simp [download_account, h, hd, retResult, this]

/-- Claim C8 witness: with an unresolvable account and an unresolvable
album, the fallback also fails and the caller receives `None`. -/
theorem account_fallback_witness :
    retResult (download_account orcFail getAlbumNone accListNone (fun _ => true) "xyz" emptyFS)
      = (download_album orcFail getAlbumNone "xyz" emptyFS).map Prod.fst ∧
    download_account orcFail getAlbumNone accListNone (fun _ => true) "xyz" emptyFS
      ≠ AccountOutcome.crash :=
  ⟨(account_fallback orcFail getAlbumNone accListNone (fun _ => true) "xyz" emptyFS rfl).1,
   (account_fallback orcFail getAlbumNone accListNone (fun _ => true) "xyz" emptyFS rfl).2.1⟩

/-- Claim C10: when album resolution fails with the client error,
`download_album` returns Python `None` rather than a `Result`; hence in an
account-level run whose selection contains such an album, the fold over
per-album results reads fields of a non-`Result` value and the run crashes
with an uncaught `AttributeError`. -/
theorem album_not_found_none (oracle : String → Fetch)
    (get_album : String → Option Album)
    (get_account_albums : String → Option (List Album)) (choose : Album → Bool)
    (album_id account_name : String) (albums : List Album) (a : Album) (fs0 : FS) :
    (get_album album_id = none → download_album oracle get_album album_id fs0 = none) ∧
    (get_account_albums account_name = some albums → a ∈ albums.filter choose →
      get_album a.id = none →
      download_account oracle get_album get_account_albums choose account_name fs0
        = AccountOutcome.crash) := by
  constructor
  · intro hg
    exact (download_album_none_iff oracle get_album album_id fs0).mpr hg
  · intro hacc hmem ha
    simp [download_account, hacc,
      foldAlbums_crash oracle get_album a ha (albums.filter choose) fs0 ⟨0, 0, 0, 0⟩ hmem]

/-- Claim C10 witness: an account listing containing one unresolvable album
crashes the account run, and the direct album call returns `None`. -/
theorem album_not_found_none_witness :
    download_album orcFail getAlbumNone "bad" emptyFS = none ∧
    download_account orcFail getAlbumNone accListBad (fun _ => true) "acct" emptyFS
      = AccountOutcome.crash :=
  ⟨(album_not_found_none orcFail getAlbumNone accListBad (fun _ => true)
      "bad" "acct" [albumBad] albumBad emptyFS).1 rfl,
   (album_not_found_none orcFail getAlbumNone accListBad (fun _ => true)
      "bad" "acct" [albumBad] albumBad emptyFS).2 (by decide) (by decide) rfl⟩

/-- Claim C2: evaluation at the failing input. An account resolves to one
selected album whose single image fails to fetch: the album run returns
`Result(downloaded=0, failed=1, skipped=0, total_bytes=0)`, so the
field-wise sum over albums has `failed = 1`; but `download_account` returns
`Result(0, 0, 0, 0)` — its `failed` field carries `num_downloaded` (source
line 140: `Result(num_downloaded, num_downloaded, num_skipped,
total_bytes)`), not the accumulated failure count. -/
theorem account_failed_field_bug :
    (download_album orcFail getAlbumA "a1" emptyFS).map Prod.fst
      = some ⟨0, 1, 0, 0⟩ ∧
    retResult (download_account orcFail getAlbumA accListA (fun _ => true) "acct" emptyFS)
      = some ⟨0, 0, 0, 0⟩ ∧
    (Result.add ⟨0, 0, 0, 0⟩ ⟨0, 1, 0, 0⟩).failed = 1 := by
  refine ⟨by decide, by decide, by decide⟩
